import Mathlib

/-!
Shallow embedding of the GitHub-integration backend's resync pipeline
(routes/githubRoutes.js): the paginated fetcher `fetchAllPages`, the bulk
writer `batchInsert`, the inline user extractor / deduplicator of the
`/resync` handler, and the `/resync` orchestrator itself, together with
theorems checking the specification's claims about them.
-/

/-- A user record extracted from GitHub payloads.  Identity key is `login`;
`payload` stands for all the remaining fields of the object, so that two
records with the same login can still differ (on dedup, records are replaced
whole, never merged). -/
structure UserRec where
  login : String
  payload : Nat
deriving DecidableEq

/-- A GitHub resource item (commit / pull / issue / timeline event).  The
pipeline treats items as opaque except for the optional `user` / `author`
sub-fields read by the user extractor and the `number` field read by the
issue-timeline loop; `tag` stands for all other fields, so distinct items can
be told apart. -/
structure Item where
  user : Option UserRec := none
  author : Option UserRec := none
  number : Nat := 0
  tag : Nat := 0
deriving DecidableEq

/-- An organization as the orchestrator reads it (`org.login`). -/
structure Org where
  login : String
deriving DecidableEq

/-- A repository as the orchestrator reads it: `owner` stands for
`repo.owner.login`, `name` for `repo.name`. -/
structure Repo where
  owner : String
  name : String
deriving DecidableEq

/-- The stored integration record, reduced to the fields the `/resync` route
reads.  `accessToken := none` models an integration document without an
`accessToken` field. -/
structure Integration where
  accessToken : Option String := none
deriving DecidableEq

/-- JavaScript truthiness test `!integration.accessToken`: an absent token or
an empty-string token is falsy. -/
def noToken : Option String → Bool
  | none => true
  | some t => t == ""

/-- One pass of the insert loop of `batchInsert`:
`for (let i = 0; i < docs.length; i += batchSize)` inserting
`docs.slice(i, i + batchSize)` when non-empty.  The collection contents are
the accumulator `coll`.  Since `i` advances by `batchSize` each iteration,
when `0 < batchSize` the loop runs at most `docs.length` iterations; that
bound is supplied as structural `fuel`, and `insertLoop_spec` shows the fuel
is never exhausted. -/
def insertLoop {α : Type} (docs : List α) (batchSize : Nat) :
    Nat → List α → Nat → List α
  | _, coll, 0 => coll
  | i, coll, fuel + 1 =>
    if i < docs.length then
      insertLoop docs batchSize (i + batchSize)
        (if 0 < ((docs.drop i).take batchSize).length then
          coll ++ (docs.drop i).take batchSize
        else coll) fuel
    else coll

/-- `batchInsert(collection, docs, batchSize = 500)` from the source, acting
on the named collection's current contents `coll`: if `docs` is empty (or
absent) it does nothing and returns 0; otherwise it first deletes the whole
collection (`deleteMany` with an empty filter, modelled as `[]`) and then
inserts `docs` in consecutive batches of at most `batchSize`, returning
`docs.length`.  The argument `hbs` records the precondition under which the
source loop terminates (`i += batchSize` with `batchSize = 0` would never
advance). -/
def batchInsert {α : Type} (docs : List α) (batchSize : Nat)
    (hbs : 0 < batchSize) (coll : List α) : List α × Nat :=
  if docs.length = 0 then (coll, 0)
  else (insertLoop docs batchSize 0 [] docs.length, docs.length)

/-- Proof that the default batch size 500 is positive. -/
def pos500 : 0 < 500 := by decide

/-- Proof that the batch size 2 used in a witness is positive. -/
def pos2 : 0 < 2 := by decide

/-- The body of the arrow function inside `extractUsers`: `item.user` if
present, else `item.author`, else nothing (the item is skipped, not an
error). -/
def extractUser (it : Item) : Option UserRec :=
  match it.user with
  | some u => some u
  | none => it.author

/-- `extractUsers(arr)` from the `/resync` handler: map each item to its
`user` / `author` sub-field and drop the items that have neither. -/
def extractUsers (arr : List Item) : List UserRec :=
  arr.filterMap extractUser

/-- One `userMap.set(key, value)` on a JavaScript `Map`, modelled as an
insertion-ordered association list: an existing key keeps its position and
gets the new value; a new key is appended at the end. -/
def mapSet (m : List (String × UserRec)) (key : String) (v : UserRec) :
    List (String × UserRec) :=
  if m.any (fun kv => kv.1 == key) then
    m.map (fun kv => if kv.1 == key then (key, v) else kv)
  else m ++ [(key, v)]

/-- The `userMap` built by
`for (const user of users) userMap.set(user.login, user)`. -/
def dedupMap (users : List UserRec) : List (String × UserRec) :=
  users.foldl (fun m u => mapSet m u.login u) []

/-- `Array.from(userMap.values())`: the deduplicated user list. -/
def dedupUsers (users : List UserRec) : List UserRec :=
  (dedupMap users).map Prod.snd

/-- The run of `fetchAllPages`'s while-loop from page number `page` onward,
over an abstract page oracle `pages` (what the GET for each 1-based page
number returns); `acc` is the `results` accumulated so far.  Returns the
final `results` together with the list of page numbers requested, in request
order.  Mirrors the source body: request the page; stop on an empty (or
missing) body; push the whole page; stop once `results.length >= maxItems`
(the page that reached the cap is kept whole); stop when the page was shorter
than `per_page = 100`; otherwise wait `delayMs` (timing is not modelled) and
continue with the next page. -/
def fetchGo {α : Type} (pages : Nat → List α) (maxItems : Nat) (page : Nat)
    (acc : List α) : List α × List Nat :=
  if (pages page).length = 0 then (acc, [page])
  else if maxItems ≤ (acc ++ pages page).length then (acc ++ pages page, [page])
  else if (pages page).length < 100 then (acc ++ pages page, [page])
  else
    ((fetchGo pages maxItems (page + 1) (acc ++ pages page)).1,
      page :: (fetchGo pages maxItems (page + 1) (acc ++ pages page)).2)
termination_by maxItems - acc.length
decreasing_by
  all_goals simp only [List.length_append] at *
  all_goals omega

/-- `fetchAllPages(url, headers, maxItems = 2000, delayMs = 200)` from the
source: run the paging loop from page 1 with empty results. -/
def fetchAllPages {α : Type} (pages : Nat → List α) (maxItems : Nat) :
    List α × List Nat :=
  fetchGo pages maxItems 1 []

/-- The items of pages `p, p + 1, …, p + k - 1` concatenated in page order. -/
def flatPages {α : Type} (pages : Nat → List α) (p k : Nat) : List α :=
  ((List.range' p k).map pages).flatten

/-- URL of the organizations endpoint fetched in step 1 of `/resync`. -/
def orgsUrl : String := "https://api.github.com/user/orgs"

/-- URL of the repositories endpoint for one organization (step 2). -/
def orgReposUrl (login : String) : String :=
  "https://api.github.com/orgs/" ++ login ++ "/repos"

/-- The per-repository `baseUrl` of step 3. -/
def repoBaseUrl (owner name : String) : String :=
  "https://api.github.com/repos/" ++ owner ++ "/" ++ name

/-- URL of one issue's timeline endpoint (step 3's inner loop). -/
def timelineUrl (owner name : String) (number : Nat) : String :=
  repoBaseUrl owner name ++ "/issues/" ++ toString number ++ "/timeline"

/-- The success message of `/resync`. -/
def successMsg : String := "GitHub data re-synced successfully."

/-- The run-level failure message of `/resync`. -/
def failMsg : String := "Failed to re-sync GitHub data."

/-- The missing-credential error message of `/resync`. -/
def noIntegrationMsg : String := "No active GitHub integration found."

/-- The external world for one resync run, at the granularity at which the
orchestrator consumes it: each field gives the outcome of one whole
`fetchAllPages` call for the corresponding endpoint (`Except.error` models
the awaited call throwing).  The item caps (2000 for organizations, repos
and commits, 500 for pulls, issues and timelines) and the bearer-token
headers are arguments of those calls and do not change the orchestration
logic, so they stay inside the oracle. -/
structure Env where
  orgs : Except String (List Org)
  orgRepos : String → Except String (List Repo)
  commitsFor : String → String → Except String (List Item)
  pullsFor : String → String → Except String (List Item)
  issuesFor : String → String → Except String (List Item)
  timelineFor : String → String → Nat → Except String (List Item)

/-- The seven `github-…` collections of the document store written by a
resync run. -/
structure Store where
  organizations : List Org := []
  repositories : List Repo := []
  commits : List Item := []
  pulls : List Item := []
  issues : List Item := []
  changelogs : List Item := []
  users : List UserRec := []
deriving DecidableEq

/-- A store whose seven collections are all empty. -/
def emptyStore : Store := {}

/-- The per-resource-type counts assembled at the end of a successful run
(the object passed to `console.log('Re-sync complete:', …)`). -/
structure Summary where
  orgs : Nat
  repos : Nat
  commits : Nat
  pulls : Nat
  issues : Nat
  changelogs : Nat
  users : Nat
deriving DecidableEq

/-- The JSON response the `/resync` route hands back to its caller:
`res.status(400).json({error})`, `res.status(500).json({success, message})`,
or `res.json({success, message})`. -/
inductive ResyncResult where
  | clientError (status : Nat) (error : String)
  | serverError (status : Nat) (success : Bool) (message : String)
  | ok (success : Bool) (message : String)
deriving DecidableEq

/-- Everything observable about one `/resync` run: the response returned to
the caller, the final store, the endpoints fetched (one entry per
`fetchAllPages` call, in call order), and the count summary logged on
success. -/
structure RunOutcome where
  response : ResyncResult
  store : Store
  trace : List String
  logged : Option Summary
deriving DecidableEq

/-- The accumulator arrays of step 3 of `/resync`
(`commits`, `pulls`, `issues`, `changelogs`, `users`), plus the fetch trace
of the detail phase. -/
structure DetailAcc where
  commits : List Item := []
  pulls : List Item := []
  issues : List Item := []
  changelogs : List Item := []
  users : List UserRec := []
  trace : List String := []
deriving DecidableEq

/-- A detail accumulator with all arrays empty. -/
def emptyDetail : DetailAcc := {}

/-- Step 2 of `/resync`: `for (const org of orgs)` fetch that organization's
repositories and append them to `repos`.  A throw is not caught here, so it
aborts the loop and propagates (first component: the endpoints attempted, in
order, including the failing one). -/
def reposPhase (env : Env) : List Org → List Repo →
    List String × Except String (List Repo)
  | [], acc => ([], Except.ok acc)
  | o :: rest, acc =>
    match env.orgRepos o.login with
    | Except.error e => ([orgReposUrl o.login], Except.error e)
    | Except.ok rs =>
      ((orgReposUrl o.login) :: (reposPhase env rest (acc ++ rs)).1,
        (reposPhase env rest (acc ++ rs)).2)

/-- The inner loop of step 3: `for (const issue of repoIssues)` fetch that
issue's timeline and append the events to `changelogs`; a throw is caught at
the issue boundary (`console.warn`) and that issue contributes nothing.
Returns the events accumulated and the timeline endpoints attempted. -/
def timelineLoop (env : Env) (owner name : String) :
    List Item → List Item × List String
  | [] => ([], [])
  | issue :: rest =>
    match env.timelineFor owner name issue.number with
    | Except.ok tl =>
      (tl ++ (timelineLoop env owner name rest).1,
        timelineUrl owner name issue.number :: (timelineLoop env owner name rest).2)
    | Except.error _ =>
      ((timelineLoop env owner name rest).1,
        timelineUrl owner name issue.number :: (timelineLoop env owner name rest).2)

/-- The body of step 3's `for (const repo of repos)` loop: fetch commits,
pulls and issues for the repository (a `Promise.all`, so all three requests
are issued and a single rejection rejects the join before anything is
pushed); on success push all three, run the timeline loop, and push the
users extracted from this repository's commits, then pulls, then issues.  A
throw is caught at the repository boundary (`console.warn`) and the
accumulator is left as it was, except that the three attempted endpoints
remain on the trace. -/
def processRepo (env : Env) (acc : DetailAcc) (repo : Repo) : DetailAcc :=
  match env.commitsFor repo.owner repo.name, env.pullsFor repo.owner repo.name,
      env.issuesFor repo.owner repo.name with
  | Except.ok rc, Except.ok rp, Except.ok ri =>
    { commits := acc.commits ++ rc
      pulls := acc.pulls ++ rp
      issues := acc.issues ++ ri
      changelogs := acc.changelogs ++ (timelineLoop env repo.owner repo.name ri).1
      users := acc.users ++ extractUsers rc ++ extractUsers rp ++ extractUsers ri
      trace := acc.trace
        ++ [repoBaseUrl repo.owner repo.name ++ "/commits",
            repoBaseUrl repo.owner repo.name ++ "/pulls",
            repoBaseUrl repo.owner repo.name ++ "/issues"]
        ++ (timelineLoop env repo.owner repo.name ri).2 }
  | _, _, _ =>
    { acc with trace := acc.trace
        ++ [repoBaseUrl repo.owner repo.name ++ "/commits",
            repoBaseUrl repo.owner repo.name ++ "/pulls",
            repoBaseUrl repo.owner repo.name ++ "/issues"] }

/-- The `/resync` route handler.  `integ` is what
`githubIntegration.findOne()` returns, `env` the external API, `store` the
document store.  Follows the source line by line: missing or falsy
credential → 400 and nothing else happens; fetch organizations and replace
the `github-organizations` collection; fetch each organization's
repositories (an uncaught throw here → 500, with the collections already
replaced staying replaced) and replace `github-repositories`; run the
per-repository detail loop; dedup the users; replace the five remaining
collections; log the per-resource-type counts; answer with a success flag
and fixed message. -/
def resyncModel (integ : Option Integration) (env : Env) (store : Store) :
    RunOutcome :=
  match integ with
  | none =>
    { response := ResyncResult.clientError 400 noIntegrationMsg
      store := store
      trace := []
      logged := none }
  | some i =>
    if noToken i.accessToken then
      { response := ResyncResult.clientError 400 noIntegrationMsg
        store := store
        trace := []
        logged := none }
    else
      match env.orgs with
      | Except.error _ =>
        { response := ResyncResult.serverError 500 false failMsg
          store := store
          trace := [orgsUrl]
          logged := none }
      | Except.ok orgs =>
        let orgIns := batchInsert orgs 500 pos500 store.organizations
        let store1 := { store with organizations := orgIns.1 }
        let rp := reposPhase env orgs []
        match rp.2 with
        | Except.error _ =>
          { response := ResyncResult.serverError 500 false failMsg
            store := store1
            trace := orgsUrl :: rp.1
            logged := none }
        | Except.ok repos =>
          let repoIns := batchInsert repos 500 pos500 store1.repositories
          let store2 := { store1 with repositories := repoIns.1 }
          let d := repos.foldl (processRepo env) emptyDetail
          let uniqueUsers := dedupUsers d.users
          let commitIns := batchInsert d.commits 500 pos500 store2.commits
          let pullIns := batchInsert d.pulls 500 pos500 store2.pulls
          let issueIns := batchInsert d.issues 500 pos500 store2.issues
          let changelogIns := batchInsert d.changelogs 500 pos500 store2.changelogs
          let userIns := batchInsert uniqueUsers 500 pos500 store2.users
          { response := ResyncResult.ok true successMsg
            store := { store2 with
              commits := commitIns.1
              pulls := pullIns.1
              issues := issueIns.1
              changelogs := changelogIns.1
              users := userIns.1 }
            trace := orgsUrl :: (rp.1 ++ d.trace)
            logged := some
              { orgs := orgIns.2
                repos := repoIns.2
                commits := commitIns.2
                pulls := pullIns.2
                issues := issueIns.2
                changelogs := changelogIns.2
                users := userIns.2 } }

/-- The timeline events one issue contributes to `changelogs`: its fetched
events, or nothing when its timeline fetch failed (caught at the issue
boundary). -/
def issueTimelineContribution (env : Env) (owner name : String)
    (issue : Item) : List Item :=
  match env.timelineFor owner name issue.number with
  | Except.ok tl => tl
  | Except.error _ => []

/-- The commits one repository contributes to the aggregated `commits` list:
its fetched commits when all three detail fetches succeed, nothing when the
repository failed (caught at the repository boundary). -/
def repoCommitsContribution (env : Env) (r : Repo) : List Item :=
  match env.commitsFor r.owner r.name, env.pullsFor r.owner r.name,
      env.issuesFor r.owner r.name with
  | Except.ok rc, Except.ok _, Except.ok _ => rc
  | _, _, _ => []

/-- The pulls one repository contributes to the aggregated `pulls` list. -/
def repoPullsContribution (env : Env) (r : Repo) : List Item :=
  match env.commitsFor r.owner r.name, env.pullsFor r.owner r.name,
      env.issuesFor r.owner r.name with
  | Except.ok _, Except.ok rp, Except.ok _ => rp
  | _, _, _ => []

/-- The issues one repository contributes to the aggregated `issues` list. -/
def repoIssuesContribution (env : Env) (r : Repo) : List Item :=
  match env.commitsFor r.owner r.name, env.pullsFor r.owner r.name,
      env.issuesFor r.owner r.name with
  | Except.ok _, Except.ok _, Except.ok ri => ri
  | _, _, _ => []

/-- The timeline events one repository contributes to the aggregated
`changelogs` list: the per-issue contributions of its issues, in issue
order, nothing when the repository failed. -/
def repoChangelogContribution (env : Env) (r : Repo) : List Item :=
  match env.commitsFor r.owner r.name, env.pullsFor r.owner r.name,
      env.issuesFor r.owner r.name with
  | Except.ok _, Except.ok _, Except.ok ri =>
    (ri.map (issueTimelineContribution env r.owner r.name)).flatten
  | _, _, _ => []

/-- The user records one repository contributes to the list handed to
deduplication: the users extracted from its commits, then its pulls, then
its issues, nothing when the repository failed. -/
def repoUsersContribution (env : Env) (r : Repo) : List UserRec :=
  match env.commitsFor r.owner r.name, env.pullsFor r.owner r.name,
      env.issuesFor r.owner r.name with
  | Except.ok rc, Except.ok rp, Except.ok ri =>
    extractUsers rc ++ extractUsers rp ++ extractUsers ri
  | _, _, _ => []

/-- Page oracle for a fetcher witness: every page holds 100 items. -/
def wPagesFull : Nat → List Nat := fun _ => List.replicate 100 0

/-- Page oracle for a fetcher witness: page 1 holds 100 items, every later
page is empty. -/
def wPagesShort : Nat → List Nat := fun p =>
  if p == 1 then List.replicate 100 0 else []

/-- Organization login used by the resync witnesses. -/
def wAcme : String := "acme"

/-- First repository name used by the resync witnesses. -/
def wSite : String := "site"

/-- Second repository name used by the resync witnesses. -/
def wLib : String := "lib"

/-- Error payload used by the resync witnesses. -/
def wErr : String := "boom"

/-- A usable stored credential. -/
def wInteg : Integration := { accessToken := some ("t0k3n") }

/-- The single organization of the resync witnesses. -/
def wOrg : Org := { login := wAcme }

/-- First repository of the resync witnesses. -/
def wRepoA : Repo := { owner := wAcme, name := wSite }

/-- Second repository of the resync witnesses. -/
def wRepoB : Repo := { owner := wAcme, name := wLib }

/-- A user record for login alice, first version. -/
def wAlice1 : UserRec := { login := "alice", payload := 1 }

/-- A user record for login alice, second version. -/
def wAlice2 : UserRec := { login := "alice", payload := 2 }

/-- A pull request authored by the first alice record. -/
def wPullA : Item := { user := some wAlice1, tag := 10 }

/-- A commit authored by the second alice record. -/
def wCommitB : Item := { author := some wAlice2, tag := 20 }

/-- A commit authored by the first alice record. -/
def wCommitG : Item := { author := some wAlice1, tag := 30 }

/-- Issue number 7 (its timeline fetch will fail in the C8 witness). -/
def wIssue7 : Item := { number := 7, tag := 7 }

/-- Issue number 8 (its timeline fetch succeeds in the C8 witness). -/
def wIssue8 : Item := { number := 8, tag := 8 }

/-- A timeline event of issue 8. -/
def wEvent8 : Item := { tag := 88 }

/-- An environment whose every fetch succeeds and returns nothing. -/
def wEnvQuiet : Env :=
  { orgs := Except.ok []
    orgRepos := fun _ => Except.ok []
    commitsFor := fun _ _ => Except.ok []
    pullsFor := fun _ _ => Except.ok []
    issuesFor := fun _ _ => Except.ok []
    timelineFor := fun _ _ _ => Except.ok [] }

/-- A quiet environment with one organization and no repositories. -/
def wEnvOneOrg : Env := { wEnvQuiet with orgs := Except.ok [wOrg] }

/-- An environment whose organizations fetch throws. -/
def wEnvOrgsFail : Env := { wEnvQuiet with orgs := Except.error wErr }

/-- Environment for the C2 counterexample: repository `site` has one pull by
alice (payload 1), repository `lib` has one commit by alice (payload 2),
nothing else. -/
def wEnvC2 : Env :=
  { wEnvQuiet with
    orgs := Except.ok [wOrg]
    orgRepos := fun l => if l == wAcme then Except.ok [wRepoA, wRepoB]
      else Except.ok []
    commitsFor := fun _ n => if n == wLib then Except.ok [wCommitB]
      else Except.ok []
    pullsFor := fun _ n => if n == wSite then Except.ok [wPullA]
      else Except.ok [] }

/-- Environment for the C8 witness: repository `site` succeeds with one
commit and two issues, of which issue 7's timeline fetch throws and issue
8's succeeds; repository `lib`'s pulls fetch throws, so the whole repository
is omitted. -/
def wEnvC8 : Env :=
  { wEnvQuiet with
    orgs := Except.ok [wOrg]
    orgRepos := fun l => if l == wAcme then Except.ok [wRepoA, wRepoB]
      else Except.ok []
    commitsFor := fun _ n => if n == wSite then Except.ok [wCommitG]
      else Except.ok []
    pullsFor := fun _ n => if n == wLib then Except.error wErr
      else Except.ok []
    issuesFor := fun _ n => if n == wSite then Except.ok [wIssue7, wIssue8]
      else Except.ok []
    timelineFor := fun _ _ num => if num == 7 then Except.error wErr
      else Except.ok [wEvent8] }

/-- The repository list the C2 counterexample run operates on. -/
def wReposC2 : List Repo := [wRepoA, wRepoB]

/-- The detail-phase accumulator of the C2 counterexample run. -/
def wDetailC2 : DetailAcc := wReposC2.foldl (processRepo wEnvC2) emptyDetail

theorem insertLoop_spec {α : Type} (docs : List α) (batchSize : Nat)
    (hbs : 0 < batchSize) :
    ∀ (fuel i : Nat) (coll : List α), docs.length ≤ i + batchSize * fuel →
      insertLoop docs batchSize i coll fuel = coll ++ docs.drop i := by
  intro fuel
  induction fuel with
  | zero =>
    intro i coll h
    rw [insertLoop, List.drop_eq_nil_of_le (by omega), List.append_nil]
  | succ n ih =>
    intro i coll h
    by_cases hi : i < docs.length
    · have hbatch : 0 < ((docs.drop i).take batchSize).length := by
        rw [List.length_take, List.length_drop]
        omega
      rw [insertLoop, if_pos hi, if_pos hbatch,
        ih (i + batchSize) _ (by rw [Nat.mul_succ] at h; omega),
        List.append_assoc]
      congr 1
      rw [← List.drop_drop, List.take_append_drop]
    · rw [insertLoop, if_neg hi,
        List.drop_eq_nil_of_le (by omega), List.append_nil]

theorem batchInsert_nonempty {α : Type} (docs : List α) (batchSize : Nat)
    (hbs : 0 < batchSize) (coll : List α) (hne : docs ≠ []) :
    batchInsert docs batchSize hbs coll = (docs, docs.length) := by
  have hlen : ¬ docs.length = 0 := by
    have := List.length_pos.mpr hne
    omega
  rw [batchInsert, if_neg hlen]
  rw [insertLoop_spec docs batchSize hbs docs.length 0 []
    (by simpa using Nat.le_mul_of_pos_left docs.length hbs)]
  simp

theorem batchInsert_into_empty {α : Type} (docs : List α) (batchSize : Nat)
    (hbs : 0 < batchSize) :
    (batchInsert docs batchSize hbs []).1 = docs := by
  by_cases h : docs = []
  · subst h; rfl
  · rw [batchInsert_nonempty docs batchSize hbs [] h]

theorem batchInsert_count {α : Type} (docs : List α) (batchSize : Nat)
    (hbs : 0 < batchSize) (coll : List α) :
    (batchInsert docs batchSize hbs coll).2 = docs.length := by
  by_cases h : docs.length = 0
  · rw [batchInsert, if_pos h, h]
  · rw [batchInsert, if_neg h]

/-- Claim C5: replacing a collection with the same non-empty batch of N
records twice in a row leaves the collection holding exactly those N records
in input order — size N, never 2N — because each non-empty call first deletes
all existing contents and then re-inserts the records, in consecutive batches
of at most `batchSize`, preserving input order. -/
theorem batchInsert_replace_not_append {α : Type} (docs : List α)
    (batchSize : Nat) (coll : List α) (hne : docs ≠ []) (hbs : 0 < batchSize) :
    (batchInsert docs batchSize hbs coll).1 = docs
    ∧ (batchInsert docs batchSize hbs
        (batchInsert docs batchSize hbs coll).1).1 = docs
    ∧ (batchInsert docs batchSize hbs
        (batchInsert docs batchSize hbs coll).1).1.length = docs.length := by
  have key : ∀ c : List α, (batchInsert docs batchSize hbs c).1 = docs := by
    intro c
    rw [batchInsert_nonempty docs batchSize hbs c hne]
  refine ⟨key coll, key _, ?_⟩
  rw [key]

/-- Witness for claim C5 at a concrete input: writing `[1, 2, 3]` twice over a
collection holding `[9]` leaves exactly `[1, 2, 3]`. -/
theorem batchInsert_replace_not_append_witness :
    (batchInsert [1, 2, 3] 2 pos2 [9]).1 = [1, 2, 3]
    ∧ (batchInsert [1, 2, 3] 2 pos2 (batchInsert [1, 2, 3] 2 pos2 [9]).1).1
        = [1, 2, 3]
    ∧ (batchInsert [1, 2, 3] 2 pos2
        (batchInsert [1, 2, 3] 2 pos2 [9]).1).1.length = [1, 2, 3].length :=
  batchInsert_replace_not_append [1, 2, 3] 2 [9] (by decide) pos2

/-- Claim C6: an empty (or absent) batch performs no destructive action: the
collection's contents are unchanged and the call returns 0. -/
theorem batchInsert_empty_noop {α : Type} (batchSize : Nat)
    (hbs : 0 < batchSize) (coll : List α) :
    batchInsert ([] : List α) batchSize hbs coll = (coll, 0) := rfl

/-- Witness for claim C6 at a concrete input: an empty batch over a collection
holding `[7, 8]` leaves it unchanged and returns 0. -/
theorem batchInsert_empty_noop_witness :
    batchInsert ([] : List Nat) 500 pos500 [7, 8] = ([7, 8], 0) :=
  batchInsert_empty_noop 500 pos500 [7, 8]

theorem flatPages_one {α : Type} (pages : Nat → List α) (p : Nat) :
    flatPages pages p 1 = pages p := by
  simp [flatPages]

theorem flatPages_succ {α : Type} (pages : Nat → List α) (p k : Nat) :
    flatPages pages p (k + 1) = pages p ++ flatPages pages (p + 1) k := by
  simp [flatPages, List.range'_succ]

theorem fetchGo_reqs_pos {α : Type} (pages : Nat → List α) (m p : Nat)
    (acc : List α) : 1 ≤ (fetchGo pages m p acc).2.length := by
  rw [fetchGo]
  split
  · simp
  · split
    · simp
    · split
      · simp
      · simp

theorem fetchAllPages_reqs_pos {α : Type} (pages : Nat → List α) (m : Nat) :
    1 ≤ (fetchAllPages pages m).2.length :=
  fetchGo_reqs_pos pages m 1 []

theorem fetchGo_cap {α : Type} (pages : Nat → List α) (m p : Nat)
    (acc : List α) :
    ∀ k, acc.length < m → 1 ≤ k → k ≤ (fetchGo pages m p acc).2.length →
      m ≤ acc.length + (flatPages pages p k).length →
      k = (fetchGo pages m p acc).2.length
      ∧ m ≤ (fetchGo pages m p acc).1.length
      ∧ (fetchGo pages m p acc).1
          = acc ++ flatPages pages p (fetchGo pages m p acc).2.length := by
  induction p, acc using fetchGo.induct pages m with
  | case1 p acc h0 =>
    intro k hlt hk1 hk hcap
    have hfg : fetchGo pages m p acc = (acc, [p]) := by
      rw [fetchGo, if_pos h0]
    rw [hfg] at hk ⊢
    simp only [List.length_singleton] at hk ⊢
    have hk2 : k = 1 := by omega
    subst hk2
    rw [flatPages_one] at hcap
    exfalso
    omega
  | case2 p acc h0 h1 =>
    intro k hlt hk1 hk hcap
    have hfg : fetchGo pages m p acc = (acc ++ pages p, [p]) := by
      rw [fetchGo, if_neg h0, if_pos h1]
    rw [hfg] at hk ⊢
    simp only [List.length_singleton] at hk ⊢
    refine ⟨by omega, h1, ?_⟩
    rw [flatPages_one]
  | case3 p acc h0 h1 h2 =>
    intro k hlt hk1 hk hcap
    have hfg : fetchGo pages m p acc = (acc ++ pages p, [p]) := by
      rw [fetchGo, if_neg h0, if_neg h1, if_pos h2]
    rw [hfg] at hk
    simp only [List.length_singleton] at hk
    have hk' : k = 1 := by omega
    subst hk'
    rw [flatPages_one] at hcap
    rw [List.length_append] at h1
    omega
  | case4 p acc h0 h1 h2 ih =>
    intro k hlt hk1 hk hcap
    have hfg : fetchGo pages m p acc
        = ((fetchGo pages m (p + 1) (acc ++ pages p)).1,
            p :: (fetchGo pages m (p + 1) (acc ++ pages p)).2) := by
      rw [fetchGo, if_neg h0, if_neg h1, if_neg h2]
    rw [hfg] at hk ⊢
    simp only [List.length_cons] at hk ⊢
    rcases Nat.lt_or_ge k 2 with hk2 | hk2
    · have hk' : k = 1 := by omega
      subst hk'
      rw [flatPages_one] at hcap
      rw [List.length_append] at h1
      omega
    · obtain ⟨q, rfl⟩ : ∃ q, k = q + 1 := ⟨k - 1, by omega⟩
      have hq1 : 1 ≤ q := by omega
      have hlt' : (acc ++ pages p).length < m := by omega
      have hq : q ≤ (fetchGo pages m (p + 1) (acc ++ pages p)).2.length := by
        omega
      have hcap' : m ≤ (acc ++ pages p).length
          + (flatPages pages (p + 1) q).length := by
        rw [flatPages_succ, List.length_append] at hcap
        rw [List.length_append]
        omega
      obtain ⟨e1, e2, e3⟩ := ih q hlt' hq1 hq hcap'
      refine ⟨by omega, e2, ?_⟩
      rw [e3, flatPages_succ, List.append_assoc]

/-- Claim C3: for every page sequence and every cap of at least 1, if the
accumulated item count reaches `maxItems` after appending the `k`-th fetched
page, then that page is the last one requested (no further page is fetched),
the returned sequence has length at least `maxItems`, and it is exactly the
concatenation of all the pages fetched — the final page is kept whole even
when it overshoots the cap, never truncated down to `maxItems`. -/
theorem fetchAllPages_cap_floor {α : Type} (pages : Nat → List α) (m k : Nat)
    (hm : 1 ≤ m) (hk1 : 1 ≤ k) (hk : k ≤ (fetchAllPages pages m).2.length)
    (hcap : m ≤ (flatPages pages 1 k).length) :
    k = (fetchAllPages pages m).2.length
    ∧ m ≤ (fetchAllPages pages m).1.length
    ∧ (fetchAllPages pages m).1
        = flatPages pages 1 (fetchAllPages pages m).2.length := by
  simp only [fetchAllPages] at hk ⊢
  have h := fetchGo_cap pages m 1 [] k (by simpa using hm) hk1 hk
    (by simpa using hcap)
  simpa using h

/-- Witness for claim C3 at a concrete input: with a cap of 50 and pages of
100 items each, the first page reaches the cap, is the only page requested,
and is returned whole (100 items, not truncated to 50). -/
theorem fetchAllPages_cap_floor_witness :
    1 = (fetchAllPages wPagesFull 50).2.length
    ∧ 50 ≤ (fetchAllPages wPagesFull 50).1.length
    ∧ (fetchAllPages wPagesFull 50).1
        = flatPages wPagesFull 1 (fetchAllPages wPagesFull 50).2.length :=
  fetchAllPages_cap_floor wPagesFull 50 1 (by decide) (by decide)
    (fetchAllPages_reqs_pos wPagesFull 50) (by decide)

theorem fetchGo_short {α : Type} (pages : Nat → List α) (m : Nat) :
    ∀ (j p : Nat) (acc : List α), 1 ≤ j →
      (pages (p + j - 1)).length < 100 →
      (∀ d, d + 1 < j → 100 ≤ (pages (p + d)).length) →
      (∀ k, k ≤ j → acc.length + (flatPages pages p k).length < m) →
      fetchGo pages m p acc = (acc ++ flatPages pages p j, List.range' p j) := by
  intro j
  induction j with
  | zero => intro p acc h; omega
  | succ n ih =>
    intro p acc hj hshort hfull hcap
    have hcap1 : acc.length + (pages p).length < m := by
      have := hcap 1 (by omega)
      rwa [flatPages_one] at this
    rcases Nat.eq_zero_or_pos n with hn | hn
    · subst hn
      have hs : (pages p).length < 100 := by
        simpa using hshort
      rw [flatPages_one, List.range'_one]
      by_cases h0 : (pages p).length = 0
      · rw [fetchGo, if_pos h0]
        rw [List.length_eq_zero.mp h0, List.append_nil]
      · have h1 : ¬ m ≤ (acc ++ pages p).length := by
          rw [List.length_append]; omega
        rw [fetchGo, if_neg h0, if_neg h1, if_pos hs]
    · have hfull0 : 100 ≤ (pages p).length := by
        have := hfull 0 (by omega)
        simpa using this
      have h0 : ¬ (pages p).length = 0 := by omega
      have h1 : ¬ m ≤ (acc ++ pages p).length := by
        rw [List.length_append]; omega
      have h2 : ¬ (pages p).length < 100 := by omega
      rw [fetchGo, if_neg h0, if_neg h1, if_neg h2]
      have hrec := ih (p + 1) (acc ++ pages p) hn ?_ ?_ ?_
      · rw [hrec, flatPages_succ, List.range'_succ, List.append_assoc]
      · have : p + 1 + n - 1 = p + (n + 1) - 1 := by omega
        rw [this]
        exact hshort
      · intro d hd
        have h := hfull (d + 1) (by omega)
        have he : p + (d + 1) = p + 1 + d := by omega
        rwa [he] at h
      · intro k hk
        have h := hcap (k + 1) (by omega)
        rw [flatPages_succ, List.length_append] at h
        rw [List.length_append]
        omega

/-- Claim C4: when page `j` is the first page shorter than `per_page = 100`
(a zero-item page included) and the cap is not reached through page `j`, the
fetcher returns exactly the concatenation of pages 1 through `j` in page
order — an empty page `j` contributing nothing — and requests exactly pages
1 through `j`, none after. -/
theorem fetchAllPages_stops_at_short_page {α : Type} (pages : Nat → List α)
    (m j : Nat) (hj : 1 ≤ j) (hshort : (pages j).length < 100)
    (hfull : ∀ i, 1 ≤ i → i < j → 100 ≤ (pages i).length)
    (hcap : ∀ k, k ≤ j → (flatPages pages 1 k).length < m) :
    fetchAllPages pages m = (flatPages pages 1 j, List.range' 1 j) := by
  rw [fetchAllPages]
  have h := fetchGo_short pages m j 1 [] hj ?_ ?_ ?_
  · simpa using h
  · have he : 1 + j - 1 = j := by omega
    rwa [he]
  · intro d hd
    have h := hfull (1 + d) (by omega) (by omega)
    exact h
  · intro k hk
    simpa using hcap k hk

/-- Witness for claim C4 at a concrete input: page 1 holds 100 items and page
2 is empty, so the fetcher requests exactly pages 1 and 2 and returns the
concatenation of both (the empty final page contributing nothing). -/
theorem fetchAllPages_stops_at_short_page_witness :
    fetchAllPages wPagesShort 2000
      = (flatPages wPagesShort 1 2, List.range' 1 2) :=
  fetchAllPages_stops_at_short_page wPagesShort 2000 2 (by decide) (by decide)
    (fun i h1 h2 => by
      have hi : i = 1 := by omega
      subst hi
      decide)
    (fun k hk => by
      have h3 : k = 0 ∨ k = 1 ∨ k = 2 := by omega
      rcases h3 with h | h | h <;> subst h <;> decide)

theorem mapSet_entry_wf (m : List (String × UserRec)) (v : UserRec)
    (hm : ∀ kv ∈ m, kv.1 = kv.2.login) :
    ∀ kv ∈ mapSet m v.login v, kv.1 = kv.2.login := by
  intro kv hkv
  rw [mapSet] at hkv
  split at hkv
  · obtain ⟨kv0, hkv0, hrepl⟩ := List.mem_map.mp hkv
    by_cases h : kv0.1 == v.login
    · rw [if_pos h] at hrepl
      rw [← hrepl]
    · rw [if_neg h] at hrepl
      rw [← hrepl]
      exact hm kv0 hkv0
  · rcases List.mem_append.mp hkv with h | h
    · exact hm kv h
    · rw [List.mem_singleton.mp h]

theorem dedupMap_entry_wf (users : List UserRec) :
    ∀ kv ∈ dedupMap users, kv.1 = kv.2.login := by
  suffices h : ∀ (us : List UserRec) (m : List (String × UserRec)),
      (∀ kv ∈ m, kv.1 = kv.2.login) →
      ∀ kv ∈ us.foldl (fun m u => mapSet m u.login u) m, kv.1 = kv.2.login by
    exact h users [] (by simp)
  intro us
  induction us with
  | nil => intro m hm; simpa using hm
  | cons u rest ih =>
    intro m hm
    simpa using ih (mapSet m u.login u) (mapSet_entry_wf m u hm)

theorem mapSet_keys_nodup (m : List (String × UserRec)) (key : String)
    (v : UserRec) (hm : m.Pairwise fun a b => a.1 ≠ b.1) :
    (mapSet m key v).Pairwise fun a b => a.1 ≠ b.1 := by
  rw [mapSet]
  split
  · rw [List.pairwise_map]
    refine hm.imp ?_
    intro a b hab
    have ha : ((if a.1 == key then (key, v) else a) : String × UserRec).1 = a.1 := by
      by_cases h : a.1 == key
      · rw [if_pos h]
        exact (beq_iff_eq.mp h).symm
      · rw [if_neg h]
    have hb : ((if b.1 == key then (key, v) else b) : String × UserRec).1 = b.1 := by
      by_cases h : b.1 == key
      · rw [if_pos h]
        exact (beq_iff_eq.mp h).symm
      · rw [if_neg h]
    rw [ha, hb]
    exact hab
  · rw [List.pairwise_append]
    refine ⟨hm, by simp, ?_⟩
    intro a ha b hb
    rw [List.mem_singleton.mp hb]
    intro hcontra
    rename_i hany
    have : m.any (fun kv => kv.1 == key) = true :=
      List.any_eq_true.mpr ⟨a, ha, beq_iff_eq.mpr hcontra⟩
    exact hany this

theorem dedupMap_keys_nodup (users : List UserRec) :
    (dedupMap users).Pairwise fun a b => a.1 ≠ b.1 := by
  suffices h : ∀ (us : List UserRec) (m : List (String × UserRec)),
      (m.Pairwise fun a b => a.1 ≠ b.1) →
      (us.foldl (fun m u => mapSet m u.login u) m).Pairwise
        fun a b => a.1 ≠ b.1 by
    exact h users [] (by simp)
  intro us
  induction us with
  | nil => intro m hm; simpa using hm
  | cons u rest ih =>
    intro m hm
    simpa using ih (mapSet m u.login u) (mapSet_keys_nodup m u.login u hm)

theorem filter_of_no_key (m : List (String × UserRec)) (key : String)
    (hnone : ∀ kv ∈ m, kv.1 ≠ key) :
    m.filter (fun kv => kv.1 == key) = [] := by
  rw [List.filter_eq_nil_iff]
  intro kv hkv
  simpa using hnone kv hkv

theorem repl_filter_same (key : String) (v : UserRec) :
    ∀ m : List (String × UserRec), (m.Pairwise fun a b => a.1 ≠ b.1) →
      m.any (fun kv => kv.1 == key) = true →
      (m.map (fun kv => if kv.1 == key then (key, v) else kv)).filter
        (fun kv => kv.1 == key) = [(key, v)] := by
  intro m
  induction m with
  | nil => intro _ hany; simp at hany
  | cons kv rest ih =>
    intro hpw hany
    rw [List.pairwise_cons] at hpw
    by_cases hk : kv.1 == key
    · rw [List.map_cons, if_pos hk, List.filter_cons]
      have hkeep : ((key, v).1 == key) = true := by simp
      rw [if_pos hkeep]
      have hrest : (rest.map (fun kv => if kv.1 == key then (key, v) else kv)).filter
          (fun kv => kv.1 == key) = [] := by
        rw [List.filter_eq_nil_iff]
        intro a ha
        obtain ⟨a0, ha0, hrepl⟩ := List.mem_map.mp ha
        have hne : a0.1 ≠ key := by
          have := hpw.1 a0 ha0
          rw [beq_iff_eq.mp hk] at this
          exact fun hcontra => this hcontra.symm
        rw [if_neg (by simpa using hne)] at hrepl
        rw [← hrepl]
        simpa using hne
      rw [hrest]
    · rw [List.map_cons, if_neg hk, List.filter_cons, if_neg (by simpa using hk)]
      have hany' : rest.any (fun kv => kv.1 == key) = true := by
        rw [List.any_cons] at hany
        rcases Bool.or_eq_true_iff.mp hany with h | h
        · exact absurd h hk
        · exact h
      exact ih hpw.2 hany'

theorem filter_mapSet_same (m : List (String × UserRec)) (key : String)
    (v : UserRec) (hpw : m.Pairwise fun a b => a.1 ≠ b.1) :
    (mapSet m key v).filter (fun kv => kv.1 == key) = [(key, v)] := by
  rw [mapSet]
  split
  · rename_i hany
    exact repl_filter_same key v m hpw hany
  · rename_i hany
    rw [List.filter_append]
    have h1 : m.filter (fun kv => kv.1 == key) = [] := by
      apply filter_of_no_key
      intro kv hkv hcontra
      exact hany (List.any_eq_true.mpr ⟨kv, hkv, beq_iff_eq.mpr hcontra⟩)
    rw [h1]
    simp

theorem repl_filter_other (key l : String) (v : UserRec) (hne : l ≠ key) :
    ∀ m : List (String × UserRec),
      (m.map (fun kv => if kv.1 == key then (key, v) else kv)).filter
        (fun kv => kv.1 == l) = m.filter (fun kv => kv.1 == l) := by
  intro m
  induction m with
  | nil => simp
  | cons kv rest ih =>
    rw [List.map_cons, List.filter_cons, List.filter_cons]
    by_cases hk : kv.1 == key
    · rw [if_pos hk]
      have h1 : ((key, v).1 == l) = false := by
        simpa using fun hcontra => hne hcontra.symm
      have h2 : (kv.1 == l) = false := by
        have hkey : kv.1 = key := beq_iff_eq.mp hk
        rw [hkey]
        simpa using fun hcontra => hne hcontra.symm
      rw [h1, h2]
      simpa using ih
    · rw [if_neg hk]
      by_cases hl : kv.1 == l
      · rw [if_pos hl, if_pos hl, ih]
      · rw [if_neg hl, if_neg hl]
        exact ih

theorem filter_mapSet_other (m : List (String × UserRec)) (key l : String)
    (v : UserRec) (hne : l ≠ key) :
    (mapSet m key v).filter (fun kv => kv.1 == l)
      = m.filter (fun kv => kv.1 == l) := by
  rw [mapSet]
  split
  · exact repl_filter_other key l v hne m
  · rw [List.filter_append]
    have h1 : (([(key, v)] : List (String × UserRec)).filter
        (fun kv => kv.1 == l)) = [] := by
      have : ((key, v).1 == l) = false := by
        simpa using fun hcontra => hne hcontra.symm
      simp [List.filter_cons, this]
    rw [h1, List.append_nil]

theorem dedupMap_append_singleton (us : List UserRec) (u : UserRec) :
    dedupMap (us ++ [u]) = mapSet (dedupMap us) u.login u := by
  simp [dedupMap]

theorem dedupMap_filter_key (users : List UserRec) (l : String) :
    ((dedupMap users).filter (fun kv => kv.1 == l)).map Prod.snd
      = ((users.filter (fun u => u.login == l)).getLast?).toList := by
  induction users using List.reverseRecOn with
  | nil => simp [dedupMap]
  | append_singleton us u ih =>
    rw [dedupMap_append_singleton, List.filter_append]
    by_cases hl : u.login == l
    · have hl' : u.login = l := beq_iff_eq.mp hl
      subst hl'
      rw [filter_mapSet_same (dedupMap us) u.login u (dedupMap_keys_nodup us)]
      have hu : ([u].filter fun x => x.login == u.login) = [u] := by simp
      rw [hu, List.getLast?_concat]
      simp
    · have hl' : l ≠ u.login := fun hcontra => by
        rw [hcontra] at hl
        simp at hl
      rw [filter_mapSet_other (dedupMap us) u.login l u hl']
      have hu : ([u].filter fun x => x.login == l) = [] := by
        simp [List.filter_cons, hl]
      rw [hu, List.append_nil]
      exact ih

/-- Claim C7: the deduplicated user list never contains two records with the
same login, and for every login the surviving record is exactly the
last-seen input record with that login (replaced whole, never merged). -/
theorem dedupUsers_unique_last_wins (users : List UserRec) :
    ((dedupUsers users).Pairwise fun a b => a.login ≠ b.login)
    ∧ ∀ l : String, (dedupUsers users).filter (fun u => u.login == l)
        = ((users.filter (fun u => u.login == l)).getLast?).toList := by
  constructor
  · rw [dedupUsers, List.pairwise_map]
    refine (dedupMap_keys_nodup users).imp_of_mem ?_
    intro a b ha hb hab
    rw [← dedupMap_entry_wf users a ha, ← dedupMap_entry_wf users b hb]
    exact hab
  · intro l
    rw [dedupUsers, List.filter_map]
    have hcongr : (dedupMap users).filter (fun kv => (Prod.snd kv).login == l)
        = (dedupMap users).filter (fun kv => kv.1 == l) := by
      apply List.filter_congr
      intro kv hkv
      rw [dedupMap_entry_wf users kv hkv]
    have hcomp : ((fun u : UserRec => u.login == l) ∘ Prod.snd)
        = fun kv : String × UserRec => (Prod.snd kv).login == l := rfl
    rw [hcomp, hcongr]
    exact dedupMap_filter_key users l

theorem timelineLoop_changelogs (env : Env) (owner name : String) :
    ∀ issues : List Item, (timelineLoop env owner name issues).1
      = (issues.map (issueTimelineContribution env owner name)).flatten := by
  intro issues
  induction issues with
  | nil => rfl
  | cons issue rest ih =>
    cases h : env.timelineFor owner name issue.number <;>
      simp [timelineLoop, h, ih, issueTimelineContribution]

theorem processRepo_commits (env : Env) (acc : DetailAcc) (r : Repo) :
    (processRepo env acc r).commits
      = acc.commits ++ repoCommitsContribution env r := by
  cases hc : env.commitsFor r.owner r.name <;>
    cases hp : env.pullsFor r.owner r.name <;>
      cases hi : env.issuesFor r.owner r.name <;>
        simp [processRepo, repoCommitsContribution, hc, hp, hi]

theorem processRepo_pulls (env : Env) (acc : DetailAcc) (r : Repo) :
    (processRepo env acc r).pulls = acc.pulls ++ repoPullsContribution env r := by
  cases hc : env.commitsFor r.owner r.name <;>
    cases hp : env.pullsFor r.owner r.name <;>
      cases hi : env.issuesFor r.owner r.name <;>
        simp [processRepo, repoPullsContribution, hc, hp, hi]

theorem processRepo_issues (env : Env) (acc : DetailAcc) (r : Repo) :
    (processRepo env acc r).issues = acc.issues ++ repoIssuesContribution env r := by
  cases hc : env.commitsFor r.owner r.name <;>
    cases hp : env.pullsFor r.owner r.name <;>
      cases hi : env.issuesFor r.owner r.name <;>
        simp [processRepo, repoIssuesContribution, hc, hp, hi]

theorem processRepo_changelogs (env : Env) (acc : DetailAcc) (r : Repo) :
    (processRepo env acc r).changelogs
      = acc.changelogs ++ repoChangelogContribution env r := by
  cases hc : env.commitsFor r.owner r.name <;>
    cases hp : env.pullsFor r.owner r.name <;>
      cases hi : env.issuesFor r.owner r.name <;>
        simp [processRepo, repoChangelogContribution, hc, hp, hi,
          timelineLoop_changelogs]

theorem processRepo_users (env : Env) (acc : DetailAcc) (r : Repo) :
    (processRepo env acc r).users = acc.users ++ repoUsersContribution env r := by
  cases hc : env.commitsFor r.owner r.name <;>
    cases hp : env.pullsFor r.owner r.name <;>
      cases hi : env.issuesFor r.owner r.name <;>
        simp [processRepo, repoUsersContribution, hc, hp, hi, List.append_assoc]

theorem foldDetail_commits (env : Env) :
    ∀ (repos : List Repo) (acc : DetailAcc),
      (repos.foldl (processRepo env) acc).commits
        = acc.commits ++ (repos.map (repoCommitsContribution env)).flatten := by
  intro repos
  induction repos with
  | nil => intro acc; simp
  | cons r rest ih =>
    intro acc
    rw [List.foldl_cons, ih, processRepo_commits]
    simp [List.append_assoc]

theorem foldDetail_pulls (env : Env) :
    ∀ (repos : List Repo) (acc : DetailAcc),
      (repos.foldl (processRepo env) acc).pulls
        = acc.pulls ++ (repos.map (repoPullsContribution env)).flatten := by
  intro repos
  induction repos with
  | nil => intro acc; simp
  | cons r rest ih =>
    intro acc
    rw [List.foldl_cons, ih, processRepo_pulls]
    simp [List.append_assoc]

theorem foldDetail_issues (env : Env) :
    ∀ (repos : List Repo) (acc : DetailAcc),
      (repos.foldl (processRepo env) acc).issues
        = acc.issues ++ (repos.map (repoIssuesContribution env)).flatten := by
  intro repos
  induction repos with
  | nil => intro acc; simp
  | cons r rest ih =>
    intro acc
    rw [List.foldl_cons, ih, processRepo_issues]
    simp [List.append_assoc]

theorem foldDetail_changelogs (env : Env) :
    ∀ (repos : List Repo) (acc : DetailAcc),
      (repos.foldl (processRepo env) acc).changelogs
        = acc.changelogs ++ (repos.map (repoChangelogContribution env)).flatten := by
  intro repos
  induction repos with
  | nil => intro acc; simp
  | cons r rest ih =>
    intro acc
    rw [List.foldl_cons, ih, processRepo_changelogs]
    simp [List.append_assoc]

theorem foldDetail_users (env : Env) :
    ∀ (repos : List Repo) (acc : DetailAcc),
      (repos.foldl (processRepo env) acc).users
        = acc.users ++ (repos.map (repoUsersContribution env)).flatten := by
  intro repos
  induction repos with
  | nil => intro acc; simp
  | cons r rest ih =>
    intro acc
    rw [List.foldl_cons, ih, processRepo_users]
    simp [List.append_assoc]

theorem resync_ok_run (i : Integration) (env : Env) (store : Store)
    (ht : noToken i.accessToken = false)
    (orgs : List Org) (horgs : env.orgs = Except.ok orgs)
    (repos : List Repo)
    (hrepos : (reposPhase env orgs []).2 = Except.ok repos) :
    resyncModel (some i) env store =
      { response := ResyncResult.ok true successMsg
        store :=
          { organizations := (batchInsert orgs 500 pos500 store.organizations).1
            repositories := (batchInsert repos 500 pos500 store.repositories).1
            commits := (batchInsert
              (repos.foldl (processRepo env) emptyDetail).commits
              500 pos500 store.commits).1
            pulls := (batchInsert
              (repos.foldl (processRepo env) emptyDetail).pulls
              500 pos500 store.pulls).1
            issues := (batchInsert
              (repos.foldl (processRepo env) emptyDetail).issues
              500 pos500 store.issues).1
            changelogs := (batchInsert
              (repos.foldl (processRepo env) emptyDetail).changelogs
              500 pos500 store.changelogs).1
            users := (batchInsert
              (dedupUsers (repos.foldl (processRepo env) emptyDetail).users)
              500 pos500 store.users).1 }
        trace := orgsUrl :: ((reposPhase env orgs []).1
          ++ (repos.foldl (processRepo env) emptyDetail).trace)
        logged := some
          { orgs := (batchInsert orgs 500 pos500 store.organizations).2
            repos := (batchInsert repos 500 pos500 store.repositories).2
            commits := (batchInsert
              (repos.foldl (processRepo env) emptyDetail).commits
              500 pos500 store.commits).2
            pulls := (batchInsert
              (repos.foldl (processRepo env) emptyDetail).pulls
              500 pos500 store.pulls).2
            issues := (batchInsert
              (repos.foldl (processRepo env) emptyDetail).issues
              500 pos500 store.issues).2
            changelogs := (batchInsert
              (repos.foldl (processRepo env) emptyDetail).changelogs
              500 pos500 store.changelogs).2
            users := (batchInsert
              (dedupUsers (repos.foldl (processRepo env) emptyDetail).users)
              500 pos500 store.users).2 } } := by
  rw [resyncModel]
  rw [ht]
  rw [horgs]
  simp only [Bool.false_eq_true, if_false]
  rw [hrepos]

/-- Claim C8: a failure fetching commits, pulls or issues for one repository
is caught at that repository's boundary (its items are omitted and the loop
proceeds), a failure fetching one issue's timeline is caught at that issue's
boundary (only that issue's events are omitted), and the run still reports
overall success with every other repository's and issue's data included: the
final collections are exactly the per-repository contributions of the
non-failing repositories, with per-issue timeline contributions of the
non-failing issues. -/
theorem resync_repo_failure_isolated (i : Integration) (env : Env)
    (ht : noToken i.accessToken = false)
    (orgs : List Org) (horgs : env.orgs = Except.ok orgs)
    (repos : List Repo)
    (hrepos : (reposPhase env orgs []).2 = Except.ok repos) :
    (resyncModel (some i) env emptyStore).response
      = ResyncResult.ok true successMsg
    ∧ (resyncModel (some i) env emptyStore).store.commits
        = (repos.map (repoCommitsContribution env)).flatten
    ∧ (resyncModel (some i) env emptyStore).store.pulls
        = (repos.map (repoPullsContribution env)).flatten
    ∧ (resyncModel (some i) env emptyStore).store.issues
        = (repos.map (repoIssuesContribution env)).flatten
    ∧ (resyncModel (some i) env emptyStore).store.changelogs
        = (repos.map (repoChangelogContribution env)).flatten
    ∧ (resyncModel (some i) env emptyStore).store.users
        = dedupUsers (repos.map (repoUsersContribution env)).flatten := by
  rw [resync_ok_run i env emptyStore ht orgs horgs repos hrepos]
  refine ⟨rfl, ?_, ?_, ?_, ?_, ?_⟩
  · show (batchInsert (repos.foldl (processRepo env) emptyDetail).commits
      500 pos500 emptyStore.commits).1 = _
    rw [show emptyStore.commits = [] from rfl, batchInsert_into_empty,
      foldDetail_commits]
    rfl
  · show (batchInsert (repos.foldl (processRepo env) emptyDetail).pulls
      500 pos500 emptyStore.pulls).1 = _
    rw [show emptyStore.pulls = [] from rfl, batchInsert_into_empty,
      foldDetail_pulls]
    rfl
  · show (batchInsert (repos.foldl (processRepo env) emptyDetail).issues
      500 pos500 emptyStore.issues).1 = _
    rw [show emptyStore.issues = [] from rfl, batchInsert_into_empty,
      foldDetail_issues]
    rfl
  · show (batchInsert (repos.foldl (processRepo env) emptyDetail).changelogs
      500 pos500 emptyStore.changelogs).1 = _
    rw [show emptyStore.changelogs = [] from rfl, batchInsert_into_empty,
      foldDetail_changelogs]
    rfl
  · show (batchInsert
      (dedupUsers (repos.foldl (processRepo env) emptyDetail).users)
      500 pos500 emptyStore.users).1 = _
    rw [show emptyStore.users = [] from rfl, batchInsert_into_empty,
      foldDetail_users]
    rfl

/-- Witness for claim C8 at a concrete input: repository `site` succeeds
with one commit and issues 7 and 8, issue 7's timeline fetch throws while
issue 8's succeeds, and repository `lib`'s pulls fetch throws; the run still
succeeds, `lib` contributes nothing, and issue 7 contributes no events. -/
theorem resync_repo_failure_isolated_witness :
    (resyncModel (some wInteg) wEnvC8 emptyStore).response
      = ResyncResult.ok true successMsg
    ∧ (resyncModel (some wInteg) wEnvC8 emptyStore).store.commits
        = ([wRepoA, wRepoB].map (repoCommitsContribution wEnvC8)).flatten
    ∧ (resyncModel (some wInteg) wEnvC8 emptyStore).store.pulls
        = ([wRepoA, wRepoB].map (repoPullsContribution wEnvC8)).flatten
    ∧ (resyncModel (some wInteg) wEnvC8 emptyStore).store.issues
        = ([wRepoA, wRepoB].map (repoIssuesContribution wEnvC8)).flatten
    ∧ (resyncModel (some wInteg) wEnvC8 emptyStore).store.changelogs
        = ([wRepoA, wRepoB].map (repoChangelogContribution wEnvC8)).flatten
    ∧ (resyncModel (some wInteg) wEnvC8 emptyStore).store.users
        = dedupUsers ([wRepoA, wRepoB].map (repoUsersContribution wEnvC8)).flatten :=
  resync_repo_failure_isolated wInteg wEnvC8 rfl [wOrg] rfl
    [wRepoA, wRepoB] rfl

/-- Claim C1 counterexample: two runs that write different per-resource-type
counts return the same value to the caller, so the value returned to the
caller does not contain the counts — it is only a success flag with a fixed
message, while the counts are merely logged. -/
theorem resync_counts_not_returned_cex :
    (resyncModel (some wInteg) wEnvOneOrg emptyStore).response
      = (resyncModel (some wInteg) wEnvQuiet emptyStore).response
    ∧ (resyncModel (some wInteg) wEnvOneOrg emptyStore).logged
      ≠ (resyncModel (some wInteg) wEnvQuiet emptyStore).logged := by
  constructor
  · rfl
  · decide

/-- Claim C1 (amended): a resync run that completes without a run-level
failure returns to the caller only a success flag and a fixed message; the
per-resource-type counts actually written (organizations, repositories,
commits, pulls, issues, changelogs, users) are assembled and logged, not
returned. -/
theorem resync_logs_counts_returns_flag (i : Integration) (env : Env)
    (ht : noToken i.accessToken = false)
    (orgs : List Org) (horgs : env.orgs = Except.ok orgs)
    (repos : List Repo)
    (hrepos : (reposPhase env orgs []).2 = Except.ok repos) :
    (resyncModel (some i) env emptyStore).response
      = ResyncResult.ok true successMsg
    ∧ (resyncModel (some i) env emptyStore).logged
      = some
        { orgs := (resyncModel (some i) env emptyStore).store.organizations.length
          repos := (resyncModel (some i) env emptyStore).store.repositories.length
          commits := (resyncModel (some i) env emptyStore).store.commits.length
          pulls := (resyncModel (some i) env emptyStore).store.pulls.length
          issues := (resyncModel (some i) env emptyStore).store.issues.length
          changelogs := (resyncModel (some i) env emptyStore).store.changelogs.length
          users := (resyncModel (some i) env emptyStore).store.users.length } := by
  rw [resync_ok_run i env emptyStore ht orgs horgs repos hrepos]
  refine ⟨rfl, ?_⟩
  simp [emptyStore, batchInsert_count, batchInsert_into_empty]

/-- Witness for the amended claim C1 at a concrete input: a successful run
over one organization with no repositories returns the fixed success
response while logging the written counts. -/
theorem resync_logs_counts_returns_flag_witness :
    (resyncModel (some wInteg) wEnvOneOrg emptyStore).response
      = ResyncResult.ok true successMsg
    ∧ (resyncModel (some wInteg) wEnvOneOrg emptyStore).logged
      = some
        { orgs := (resyncModel (some wInteg) wEnvOneOrg
            emptyStore).store.organizations.length
          repos := (resyncModel (some wInteg) wEnvOneOrg
            emptyStore).store.repositories.length
          commits := (resyncModel (some wInteg) wEnvOneOrg
            emptyStore).store.commits.length
          pulls := (resyncModel (some wInteg) wEnvOneOrg
            emptyStore).store.pulls.length
          issues := (resyncModel (some wInteg) wEnvOneOrg
            emptyStore).store.issues.length
          changelogs := (resyncModel (some wInteg) wEnvOneOrg
            emptyStore).store.changelogs.length
          users := (resyncModel (some wInteg) wEnvOneOrg
            emptyStore).store.users.length } :=
  resync_logs_counts_returns_flag wInteg wEnvOneOrg rfl [wOrg] rfl [] rfl

/-- Claim C2 counterexample: with repository `site` holding one pull by alice
(payload 1) and repository `lib` holding one commit by alice (payload 2),
the sequence handed to deduplication is `[alice#1, alice#2]` — per
repository — while the claim's order (extractor over the aggregated commits,
then pulls, then issues lists) would give `[alice#2, alice#1]`; with
last-seen-wins deduplication the persisted users collection differs as
well. -/
theorem resync_users_order_cex :
    wDetailC2.users
      ≠ extractUsers wDetailC2.commits ++ extractUsers wDetailC2.pulls
        ++ extractUsers wDetailC2.issues
    ∧ (resyncModel (some wInteg) wEnvC2 emptyStore).store.users
      ≠ dedupUsers (extractUsers wDetailC2.commits
          ++ extractUsers wDetailC2.pulls ++ extractUsers wDetailC2.issues) := by
  constructor
  · decide
  · decide

/-- Claim C2 (amended): the sequence of user records handed to deduplication
(and then persisted) is the concatenation, in repository order, over the
successfully processed repositories, of the users extracted from that
repository's commits, then its pulls, then its issues — not the extractor
applied to the fully aggregated commits, pulls and issues lists. -/
theorem resync_users_per_repo_order (env : Env) (repos : List Repo)
    (acc : DetailAcc) :
    (repos.foldl (processRepo env) acc).users
      = acc.users ++ (repos.map (repoUsersContribution env)).flatten :=
  foldDetail_users env repos acc

/-- Claim C9: when no integration record exists or the stored record has no
access token, the resync call fails immediately with the no-active-
integration error, before issuing any external API request and before any
store write; and a run that ends in the run-level failure response has
always issued at least one external request first, so the credential check
is the only failure that aborts the run before any fetching begins. -/
theorem resync_missing_credential_fails_fast
    (integ integ2 : Option Integration) (env env2 : Env) (store store2 : Store)
    (h : integ = none ∨ ∃ i, integ = some i ∧ i.accessToken = none)
    (hfail : (resyncModel integ2 env2 store2).response
      = ResyncResult.serverError 500 false failMsg) :
    (resyncModel integ env store).response
      = ResyncResult.clientError 400 noIntegrationMsg
    ∧ (resyncModel integ env store).trace = []
    ∧ (resyncModel integ env store).store = store
    ∧ (resyncModel integ2 env2 store2).trace ≠ [] := by
  have part2 : (resyncModel integ2 env2 store2).trace ≠ [] := by
    rcases integ2 with _ | i2
    · simp [resyncModel] at hfail
    · by_cases ht2 : noToken i2.accessToken = true
      · simp [resyncModel, ht2] at hfail
      · rw [Bool.not_eq_true] at ht2
        rcases horgs2 : env2.orgs with e | orgs2
        · simp [resyncModel, ht2, horgs2]
        · rcases hrp2 : (reposPhase env2 orgs2 []).2 with e | repos2
          · simp [resyncModel, ht2, horgs2, hrp2]
          · rw [resync_ok_run i2 env2 store2 ht2 orgs2 horgs2 repos2 hrp2]
            at hfail
            simp at hfail
  rcases h with h | ⟨i, hi, htok⟩
  · subst h
    exact ⟨rfl, rfl, rfl, part2⟩
  · subst hi
    have hno : noToken i.accessToken = true := by
      rw [htok]
      rfl
    refine ⟨?_, ?_, ?_, part2⟩ <;> simp [resyncModel, hno]

/-- Witness for claim C9 at a concrete input: with no integration record the
run responds with the no-active-integration error, fetches nothing and
leaves the store untouched, while a run whose organizations fetch throws
(ending in the 500 failure) has a non-empty fetch trace. -/
theorem resync_missing_credential_fails_fast_witness :
    (resyncModel none wEnvOneOrg emptyStore).response
      = ResyncResult.clientError 400 noIntegrationMsg
    ∧ (resyncModel none wEnvOneOrg emptyStore).trace = []
    ∧ (resyncModel none wEnvOneOrg emptyStore).store = emptyStore
    ∧ (resyncModel (some wInteg) wEnvOrgsFail emptyStore).trace ≠ [] :=
  resync_missing_credential_fails_fast none (some wInteg) wEnvOneOrg
    wEnvOrgsFail emptyStore emptyStore (Or.inl rfl) rfl
